import Mathlib

/-
Verification of the AI legal assistance co-pilot repository.

Shallow embedding of the Python source:
  - tools/document_processor.py   (DocumentProcessorTools)
  - agents/question_answer_agent.py (QAAgent)
  - graph/multi_agent_graph.py    (MultiAgentGraph.decide_next)

External collaborators (the LLM, the vector index, the document loaders,
the JSON parser of the standard library and the text splitter) are taken
as oracle parameters, exactly as the code treats them: opaque callables
whose results drive the control flow under verification.
-/

/-! Python-faithful string helpers. -/

/-- An ASCII single-quote character as a string (used by Python list rendering). -/
def squo : String := String.singleton (Char.ofNat 39)

/-- Python str.strip(): remove leading and trailing whitespace. -/
def py_strip (s : String) : String :=
  ⟨(((s.data.dropWhile Char.isWhitespace).reverse.dropWhile Char.isWhitespace).reverse)⟩

/-- Python str.lower(). -/
def py_lower (s : String) : String := ⟨s.data.map Char.toLower⟩

/-- sub is an initial segment of hay. -/
def list_starts : List Char → List Char → Bool
  | [], _ => true
  | _ :: _, [] => false
  | a :: as, b :: bs => a = b && list_starts as bs

/-- sub occurs contiguously somewhere in hay. -/
def list_has (sub : List Char) : List Char → Bool
  | [] => list_starts sub []
  | c :: cs => list_starts sub (c :: cs) || list_has sub cs

/-- Python substring test: the expression sub in hay. -/
def py_in (sub hay : String) : Bool := list_has sub.data hay.data

/-- Python slice lst[-k:] for a natural k. Note the pitfall the code inherits:
for k = 0 the slice is lst[0:], the whole list, not the empty suffix. -/
def py_slice_last {α : Type} (k : Nat) (l : List α) : List α :=
  if k = 0 then l else l.drop (l.length - k)

/-- Python " ".join(xs). -/
def join_space (xs : List String) : String := String.intercalate " " xs

/-- Python os.path.basename (POSIX): the part after the last slash. -/
def basename (s : String) : String :=
  ⟨(s.data.reverse.takeWhile (fun c => c ≠ '/')).reverse⟩

/-- Python os.path.splitext(name)[0] for a slash-free name: cut at the last dot,
except that leading dots never start an extension. -/
def splitext_root (name : String) : String :=
  let cs := name.data
  let lead := cs.takeWhile (fun c => c = '.')
  let rest := cs.drop lead.length
  if rest.contains '.' then ⟨((cs.reverse.dropWhile (fun c => c ≠ '.')).drop 1).reverse⟩
  else name

/-- Decidable equality for Except values, used to evaluate concrete runs. -/
instance {α β : Type} [DecidableEq α] [DecidableEq β] : DecidableEq (Except α β) := fun a b =>
  match a, b with
  | .ok x, .ok y =>
    if h : x = y then .isTrue (by rw [h]) else .isFalse (by intro hc; cases hc; exact h rfl)
  | .error x, .error y =>
    if h : x = y then .isTrue (by rw [h]) else .isFalse (by intro hc; cases hc; exact h rfl)
  | .ok _, .error _ => .isFalse (by intro hc; cases hc)
  | .error _, .ok _ => .isFalse (by intro hc; cases hc)

/-! Chunk metadata model (Python dict values are scalars or lists of scalars,
tested with truthiness and rendered with str). -/

/-- A metadata value: a scalar (kept as its str() rendering) or a list of scalars. -/
inductive MetaVal where
  | str (s : String)
  | vlist (vs : List String)
deriving DecidableEq

/-- A metadata dict, as an association list. -/
abbrev Metadata := List (String × MetaVal)

/-- Python metadata.get(key): association-list lookup. -/
def meta_get (m : Metadata) (k : String) : Option MetaVal := List.lookup k m

/-- Python truthiness of a metadata value: non-empty string or non-empty list. -/
def meta_truthy : MetaVal → Bool
  | .str s => decide (s ≠ "")
  | .vlist vs => decide (vs ≠ [])

/-- A stored chunk: page content plus metadata (langchain Document). -/
structure Chunk where
  page_content : String
  metadata : Metadata
deriving DecidableEq

/-! QAAgent document scoping (agents/question_answer_agent.py). -/

/-- Truthiness of the optional doc_id (None or the empty string are falsy). -/
def py_truthy_id : Option String → Bool
  | none => false
  | some s => decide (s ≠ "")

/-- QAAgent._normalize_doc_ids as the Python set it builds:
empty for a falsy raw_id, else the raw id, its basename, and the basename
without extension. -/
def normalize_doc_ids : Option String → Finset String
  | none => ∅
  | some r => if r = "" then ∅ else {r, basename r, splitext_root (basename r)}

/-- The same three candidate identifiers in iteration-friendly list form. -/
def cand_list : Option String → List String
  | none => []
  | some r => if r = "" then [] else [r, basename r, splitext_root (basename r)]

/-- The fixed ordered list of metadata keys QAAgent._doc_matches inspects. -/
def tracked_keys : List String :=
  ["doc_id", "source", "file_name", "source_id", "source_filename"]

/-- Inner test of QAAgent._doc_matches: some candidate occurs as a substring of
some element of the (listified) value. -/
def val_matches (cands : List String) : MetaVal → Bool
  | .str s => cands.any (fun c => py_in c s)
  | .vlist vs => vs.any (fun s => cands.any (fun c => py_in c s))

/-- QAAgent._doc_matches: True when doc_id or the candidate set is falsy;
otherwise scan the tracked keys, skipping falsy values, looking for a
substring hit. -/
def doc_matches (doc_id : Option String) (m : Metadata) : Bool :=
  let cands := cand_list doc_id
  if !(py_truthy_id doc_id) || cands.isEmpty then true
  else tracked_keys.any (fun k =>
    match meta_get m k with
    | some v => meta_truthy v && val_matches cands v
    | none => false)

/-- The scoping step of QAAgent.answer (step 3): when doc_id is truthy,
keep only the chunks whose metadata matches; otherwise pass the set through. -/
def scope_step (doc_id : Option String) (docs : List Chunk) : List Chunk :=
  if py_truthy_id doc_id then docs.filter (fun d => doc_matches doc_id d.metadata) else docs

/-- A single-candidate version of the substring test, for stating hypotheses:
the document identifier d occurs in the value (in some element, for lists). -/
def meta_val_has (d : String) : MetaVal → Bool
  | .str s => py_in d s
  | .vlist vs => vs.any (fun s => py_in d s)

/-! QAAgent.answer (agents/question_answer_agent.py lines 118-171). -/

/-- A chat message (SystemMessage / HumanMessage / AIMessage). -/
inductive Msg where
  | system (content : String)
  | human (content : String)
  | ai (content : String)
deriving DecidableEq

/-- Render a metadata value the way a Python f-string would. -/
def render_val : MetaVal → String
  | .str s => s
  | .vlist vs =>
    "[" ++ String.intercalate ", " (vs.map (fun s => squo ++ s ++ squo)) ++ "]"

/-- meta.get("type", "raw") of _format_context. -/
def doc_type_of (m : Metadata) : String :=
  match meta_get m "type" with
  | some v => render_val v
  | none => "raw"

/-- A metadata lookup that yields the value only when it is truthy
(the building block of Python's meta.get(k1) or meta.get(k2) or ... chain). -/
def truthy_get (m : Metadata) (k : String) : Option MetaVal :=
  match meta_get m k with
  | some v => if meta_truthy v then some v else none
  | none => none

/-- The src shown by _format_context: first truthy of source, file_name,
doc_id, else "unknown". -/
def src_of (m : Metadata) : String :=
  match truthy_get m "source" with
  | some v => render_val v
  | none =>
    match truthy_get m "file_name" with
    | some v => render_val v
    | none =>
      match truthy_get m "doc_id" with
      | some v => render_val v
      | none => "unknown"

/-- QAAgent._format_context. -/
def format_context (label : String) (docs : List Chunk) : String :=
  if docs.isEmpty then "(" ++ label ++ ": no context)\n"
  else String.intercalate "\n" (docs.enum.map (fun p =>
    "[" ++ label ++ toString (p.1 + 1) ++ "] (" ++ doc_type_of p.2.metadata ++
    ", src=" ++ src_of p.2.metadata ++ ")\n" ++ py_strip p.2.page_content ++ "\n"))

/-- QAAgent._system_prompt. -/
def system_prompt : String :=
  "You are LegalQA, an expert AI assistant specialized in analyzing legal documents.\n" ++
  "Use the provided CONTEXT (which may include raw document text, summaries, clauses, and risk analyses)\n" ++
  "to answer the user" ++ squo ++ "s question accurately and transparently.\n\n" ++
  "Guidelines:\n" ++
  "1. Use only the facts present in CONTEXT — do NOT fabricate information.\n" ++
  "2. If the answer isn" ++ squo ++ "t clearly supported, say " ++ squo ++
  "The document does not specify" ++ squo ++ ".\n" ++
  "3. When referencing a clause or summary, prefix with [C1], [R2], etc. for traceability.\n" ++
  "4. Prefer summaries and clauses for direct answers, but quote the raw document text for precision.\n" ++
  "5. Keep tone: professional, clear, and legally accurate.\n" ++
  "6. If user’s query is about obligations, penalties, or risks — prioritize " ++ squo ++
  "risk_analysis" ++ squo ++ " context.\n"

/-- QAAgent.answer. The two retrievers and the model are oracles: the code
catches retriever exceptions (degrading to an empty list) but invokes the
model bare, so a model error propagates and the history is left untouched.
Returns the answer outcome together with the updated conversation history. -/
def answer (doc_id : Option String) (max_history : Nat) (history : List Msg)
    (ret_analysis ret_docs : Except String (List Chunk))
    (llm : List Msg → Except String String) (question : String) :
    Except String String × List Msg :=
  let analysis_docs := match ret_analysis with | .ok ds => ds | .error _ => []
  let raw_docs := match ret_docs with | .ok ds => ds | .error _ => []
  let analysis_docs := scope_step doc_id analysis_docs
  let raw_docs := scope_step doc_id raw_docs
  let analysis_context := format_context "A" analysis_docs
  let raw_context := format_context "D" raw_docs
  let context_combined :=
    "--- ANALYSIS CONTEXT ---\n" ++ analysis_context ++
    "\n\n--- RAW DOCUMENT CONTEXT ---\n" ++ raw_context
  let messages := [Msg.system system_prompt] ++ py_slice_last max_history history ++
    [Msg.human ("CONTEXT:\n" ++ context_combined ++ "\n\nQUESTION: " ++ question ++
      "\nNow provide a concise, well-cited legal answer.")]
  match llm messages with
  | .error e => (.error e, history)
  | .ok ai_content =>
    let h := history ++ [Msg.human question, Msg.ai ai_content]
    let h := if h.length > max_history * 2 then py_slice_last (max_history * 2) h else h
    (.ok (py_strip ai_content), h)

/-- One answer call's inputs: the question and the three oracle outcomes. -/
structure CallIn where
  question : String
  ret_analysis : Except String (List Chunk)
  ret_docs : Except String (List Chunk)
  llm : List Msg → Except String String

/-- The history left behind by one answer call. -/
def answer_update (doc_id : Option String) (mh : Nat) (h : List Msg) (c : CallIn) : List Msg :=
  (answer doc_id mh h c.ret_analysis c.ret_docs c.llm c.question).2

/-- A session: a sequence of answer calls starting from the empty history. -/
def run_answers (doc_id : Option String) (mh : Nat) (calls : List CallIn) : List Msg :=
  calls.foldl (answer_update doc_id mh) []

/-! MultiAgentGraph.decide_next (graph/multi_agent_graph.py). -/

/-- A parsed JSON value, as json.loads would return it. -/
inductive JsonVal where
  | null
  | jbool (b : Bool)
  | jnum (n : Int)
  | jstr (s : String)
  | jarr (xs : List JsonVal)
  | jobj (fields : List (String × JsonVal))

/-- Outcome of json.loads on the supervisor's message content: either a
JSONDecodeError or a parsed value. The parser itself is the Python standard
library, an external collaborator. -/
inductive ParsedContent where
  | decode_error
  | parsed (j : JsonVal)

/-- The route names the conditional-edge map of build_graph knows. -/
def known_targets : List String :=
  ["document_processor_agent", "summarizer_agent", "clause_explainer_agent",
   "risk_analysis_agent", "report_generator_agent", "end"]

/-- MultiAgentGraph.decide_next. is_ai says whether the last message is an
AIMessage. A raised Python AttributeError (calling .get on a non-dict, or
.strip on a non-string) is the error case of the Except. -/
def decide_next (is_ai : Bool) (content : ParsedContent) : Except String String :=
  if !is_ai then .ok "end"
  else
    match content with
    | .decode_error => .ok "end"
    | .parsed j =>
      match j with
      | .jobj fields =>
        match List.lookup "next_agent" fields with
        | none => .ok "end"
        | some (.jstr s) =>
          let t := py_strip s
          .ok (if t = "" then "end" else py_lower t)
        | some _ => .error "AttributeError"
      | _ => .error "AttributeError"

/-! DocumentProcessorTools (tools/document_processor.py). -/

/-- The external world of the ingestion pipeline: the file system plus the
three loaders (PyPDFLoader.load_and_split, Docx2txtLoader.load, pytesseract
OCR), all external collaborators. -/
structure LoadEnv where
  path_exists : String → Bool
  load_pdf : String → List Chunk
  load_docx : String → List Chunk
  ocr_text : String → String

/-- file_path.split(".")[-1].lower(): the lowercased text after the last dot
(the whole path when there is no dot). -/
def ext_of (p : String) : String :=
  py_lower ⟨(p.data.reverse.takeWhile (fun c => c ≠ '.')).reverse⟩

/-- The extensions load_document_parallel recognizes. -/
def supported_exts : List String := ["pdf", "docx", "png", "jpg", "jpeg"]

/-- DocumentProcessorTools.load_document_parallel: dispatch on the extension;
the OCR branch wraps the recognized text in a single metadata-free Document;
anything else raises ValueError (the error case). -/
def load_document_parallel (env : LoadEnv) (file_path : String) : Except String (List Chunk) :=
  let ext := ext_of file_path
  if ext = "pdf" then .ok (env.load_pdf file_path)
  else if ext = "docx" then .ok (env.load_docx file_path)
  else if ["png", "jpg", "jpeg"].contains ext then .ok [⟨env.ocr_text file_path, []⟩]
  else .error ("Unsupported file type: " ++ ext)

/-- Modelled from the spec: the external Chunker "splits segments into
fixed-size overlapping text chunks"; the langchain splitter (absent from the
repository) processes each document of a list independently and in order,
so split_documents is per-document application of the black-box per-document
splitter split1. -/
def split_documents (split1 : Chunk → List Chunk) : List Chunk → List Chunk
  | [] => []
  | d :: ds => split1 d ++ split_documents split1 ds

/-- DocumentProcessorTools.chunk_documents_parallel: lists of length at most
one are split directly; longer lists are split per document through
ThreadPoolExecutor.map, whose results come back in input order, and then
flattened. -/
def chunk_documents_parallel (split1 : Chunk → List Chunk) (documents : List Chunk) :
    List Chunk :=
  if documents.length ≤ 1 then split_documents split1 documents
  else (documents.map (fun d => split_documents split1 [d])).flatten

/-- The batch_size default of DocumentProcessorTools.__init__. -/
def batch_size_default : Nat := 100

/-- The slice starts of Python range(0, len, bs). -/
def batch_starts (len bs : Nat) : List Nat := List.range' 0 ((len + bs - 1) / bs) bs

/-- The successive slices chunks[i:i+bs] taken by store_in_vectordb_batch. -/
def batches (bs : Nat) (chunks : List Chunk) : List (List Chunk) :=
  (batch_starts chunks.length bs).map (fun i => (chunks.drop i).take bs)

/-- Sequential batch application: stop at the first add_documents exception. -/
def run_batches (add : List Chunk → Except String Unit) :
    List (List Chunk) → Except String Unit
  | [] => Except.ok ()
  | b :: rest =>
    match add b with
    | .ok _ => run_batches add rest
    | .error e => .error e

/-- DocumentProcessorTools.store_in_vectordb_batch: add the slices one after
another to the vector store (the add oracle is Chroma.add_documents); an
exception aborts the loop and propagates. -/
def store_in_vectordb_batch (add : List Chunk → Except String Unit) (bs : Nat)
    (chunks : List Chunk) : Except String Unit :=
  run_batches add (batches bs chunks)

/-- How many chunks were persisted before the first failing batch — a
quantity the return value of the code never carries. -/
def persisted_count (add : List Chunk → Except String Unit) : List (List Chunk) → Nat
  | [] => 0
  | b :: rest =>
    match add b with
    | .ok _ => b.length + persisted_count add rest
    | .error _ => 0

/-- The success payload of process_document. -/
structure Manifest where
  file_name : String
  num_chunks : Nat
  vector_db_path : String
  extracted_text : String
deriving DecidableEq

/-- The dict process_document returns: an error record or a manifest. -/
inductive ProcResult where
  | error (msg : String)
  | ok (m : Manifest)
deriving DecidableEq

/-- Whether a process_document result is the error record. -/
def proc_is_error : ProcResult → Bool
  | .error _ => true
  | .ok _ => false

/-- DocumentProcessorTools.process_document: check existence, load, reject an
empty document list, chunk, store in batches, and assemble the manifest; every
raised exception is caught and returned as an error record. -/
def process_document (env : LoadEnv) (split1 : Chunk → List Chunk)
    (add : List Chunk → Except String Unit) (bs : Nat)
    (persist_directory file_path : String) : ProcResult :=
  if !(env.path_exists file_path) then .error ("File not found: " ++ file_path)
  else
    match load_document_parallel env file_path with
    | .error e => .error e
    | .ok documents =>
      if documents.isEmpty then .error "No text extracted from document."
      else
        let chunks := chunk_documents_parallel split1 documents
        match store_in_vectordb_batch add bs chunks with
        | .error e => .error e
        | .ok _ =>
          .ok ⟨basename file_path, chunks.length, persist_directory,
               join_space (documents.map Chunk.page_content)⟩

/-! Concrete instances used by witnesses and counterexamples. -/

/-- A trivial per-document splitter: one chunk per document. -/
def split_id : Chunk → List Chunk := fun c => [c]

/-- A splitter that, like the real one, yields nothing on empty text. -/
def split_drop_empty : Chunk → List Chunk := fun c =>
  if c.page_content = "" then [] else [c]

/-- A vector store whose add_documents always succeeds. -/
def add_ok : List Chunk → Except String Unit := fun _ => Except.ok ()

/-- A vector store that fails on any batch holding a chunk with text "bad". -/
def add_fail_bad : List Chunk → Except String Unit := fun b =>
  if b.any (fun c => c.page_content = "bad") then Except.error "db write failed"
  else Except.ok ()

/-- A file system with no files. -/
def env_missing : LoadEnv := ⟨fun _ => false, fun _ => [], fun _ => [], fun _ => ""⟩

/-- A file system where every path exists but loaders yield nothing. -/
def env_present : LoadEnv := ⟨fun _ => true, fun _ => [], fun _ => [], fun _ => ""⟩

/-- A scanner whose OCR reads an empty string from every image. -/
def env_blank_scan : LoadEnv := ⟨fun _ => true, fun _ => [], fun _ => [], fun _ => ""⟩

/-- A scanner whose OCR reads "hello world" from every image. -/
def env_hello : LoadEnv := ⟨fun _ => true, fun _ => [], fun _ => [], fun _ => "hello world"⟩

/-- Chunks whose first batch of two fails under add_fail_bad. -/
def c5_chunks_early : List Chunk := [⟨"bad", []⟩, ⟨"x", []⟩]

/-- Chunks whose second batch of two fails under add_fail_bad. -/
def c5_chunks_late : List Chunk := [⟨"a", []⟩, ⟨"b", []⟩, ⟨"bad", []⟩]

/-- Two chunks that both mention contract.pdf in tracked metadata keys. -/
def c6_chunks : List Chunk :=
  [⟨"first clause text", [("doc_id", MetaVal.str "uploads/contract.pdf")]⟩,
   ⟨"second clause text", [("source", MetaVal.vlist ["contract.pdf"])]⟩]

/-- A two-call session with max_history 1 (one retrieval failure included). -/
def c9_calls : List CallIn :=
  [⟨"q1", Except.ok [], Except.ok [], fun _ => Except.ok "a1"⟩,
   ⟨"q2", Except.error "RetrievalUnavailable", Except.ok [], fun _ => Except.ok "a2"⟩]

/-- A single successful call, for the max_history = 0 counterexample. -/
def c9_cex_calls : List CallIn :=
  [⟨"q", Except.ok [], Except.ok [], fun _ => Except.ok "a"⟩]

/-! Helper lemmas. -/

theorem list_starts_self_append (sub rest : List Char) : list_starts sub (sub ++ rest) = true := by
  induction sub with
  | nil => rfl
  | cons a as ih => simp [list_starts, ih]

theorem list_has_nil_left (hay : List Char) : list_has [] hay = true := by
  cases hay with
  | nil => rfl
  | cons c cs => simp [list_has, list_starts]

theorem list_has_self_append (sub rest : List Char) : list_has sub (sub ++ rest) = true := by
  cases sub with
  | nil => simpa using list_has_nil_left rest
  | cons a as =>
    show list_has (a :: as) (a :: (as ++ rest)) = true
    simp [list_has]
    exact Or.inl (by simpa using list_starts_self_append (a :: as) rest)

theorem list_has_append_left (pre sub hay : List Char) (h : list_has sub hay = true) :
    list_has sub (pre ++ hay) = true := by
  induction pre with
  | nil => simpa using h
  | cons c cs ih => simp [list_has]; exact Or.inr (by simpa using ih)

theorem list_has_hay_ne_nil (sub hay : List Char) (h : list_has sub hay = true)
    (hs : sub ≠ []) : hay ≠ [] := by
  intro he
  subst he
  cases sub with
  | nil => exact hs rfl
  | cons a as => simp [list_has, list_starts] at h

theorem string_data_ne_nil (s : String) (h : s ≠ "") : s.data ≠ [] := by
  intro hd
  apply h
  cases s with
  | mk data => simp at hd; simp [hd]

theorem string_ne_of_data_ne (s : String) (h : s.data ≠ []) : s ≠ "" := by
  intro he
  subst he
  exact h rfl

theorem py_in_parts (d pre suf : String) : py_in d (pre ++ d ++ suf) = true := by
  show list_has d.data (pre ++ d ++ suf).data = true
  rw [String.data_append, String.data_append, List.append_assoc]
  exact list_has_append_left pre.data d.data (d.data ++ suf.data)
    (list_has_self_append d.data suf.data)

theorem py_in_hay_ne_empty (d s : String) (h : py_in d s = true) (hd : d ≠ "") : s ≠ "" :=
  string_ne_of_data_ne s
    (list_has_hay_ne_nil d.data s.data h (string_data_ne_nil d hd))

theorem cand_list_pos (d : String) (hd : d ≠ "") :
    cand_list (some d) = [d, basename d, splitext_root (basename d)] := by
  simp [cand_list, hd]

theorem py_truthy_id_pos (d : String) (hd : d ≠ "") : py_truthy_id (some d) = true := by
  simp [py_truthy_id, hd]

theorem doc_matches_of_has (d : String) (m : Metadata) (hd : d ≠ "")
    (h : tracked_keys.any (fun k => ((meta_get m k).map (meta_val_has d)).getD false) = true) :
    doc_matches (some d) m = true := by
  rcases List.any_eq_true.mp h with ⟨k, hk, hkv⟩
  cases hv : meta_get m k with
  | none => rw [hv] at hkv; simp at hkv
  | some v =>
    rw [hv] at hkv
    simp at hkv
    have hv_has : meta_val_has d v = true := hkv
    unfold doc_matches
    rw [py_truthy_id_pos d hd, cand_list_pos d hd]
    simp only [Bool.not_true, Bool.false_or, List.isEmpty_cons, if_false, Bool.false_eq_true]
    apply List.any_eq_true.mpr
    refine ⟨k, hk, ?_⟩
    rw [hv]
    have hd_mem : d ∈ [d, basename d, splitext_root (basename d)] := by simp
    cases v with
    | str s =>
      have hps : py_in d s = true := hv_has
      have hs_ne : s ≠ "" := py_in_hay_ne_empty d s hps hd
      simp [meta_truthy, hs_ne, val_matches]
      exact Or.inl hps
    | vlist vs =>
      rcases List.any_eq_true.mp hv_has with ⟨s, hs_mem, hps⟩
      have hvs_ne : vs ≠ [] := by intro he; subst he; simp at hs_mem
      simp [meta_truthy, hvs_ne, val_matches]
      exact ⟨s, hs_mem, Or.inl (by simpa using hps)⟩

theorem answer_update_len (doc_id : Option String) (mh : Nat) (h : List Msg) (c : CallIn)
    (hmh : 1 ≤ mh) (hh : h.length ≤ 2 * mh) : (answer_update doc_id mh h c).length ≤ 2 * mh := by
  unfold answer_update answer
  cases hl : c.llm ([Msg.system system_prompt] ++ py_slice_last mh h ++
      [Msg.human ("CONTEXT:\n" ++
        ("--- ANALYSIS CONTEXT ---\n" ++
          format_context "A" (scope_step doc_id (match c.ret_analysis with
            | .ok ds => ds | .error _ => [])) ++
         "\n\n--- RAW DOCUMENT CONTEXT ---\n" ++
          format_context "D" (scope_step doc_id (match c.ret_docs with
            | .ok ds => ds | .error _ => []))) ++
        "\n\nQUESTION: " ++ c.question ++
        "\nNow provide a concise, well-cited legal answer.")]) with
  | error e => simp only [hl]; exact hh
  | ok a =>
    simp only [hl]
    by_cases hlen : (h ++ [Msg.human c.question, Msg.ai a]).length > mh * 2
    · simp only [if_pos hlen, py_slice_last]
      rw [if_neg (by omega)]
      simp only [List.length_drop, List.length_append, List.length_cons, List.length_nil]
      omega
    · simp only [if_neg hlen]
      simp only [List.length_append, List.length_cons, List.length_nil] at hlen ⊢
      omega

theorem foldl_answer_len (doc_id : Option String) (mh : Nat) (hmh : 1 ≤ mh) :
    ∀ (cs : List CallIn) (h : List Msg), h.length ≤ 2 * mh →
      (cs.foldl (answer_update doc_id mh) h).length ≤ 2 * mh := by
  intro cs
  induction cs with
  | nil => intro h hh; simpa using hh
  | cons c cs ih =>
    intro h hh
    exact ih (answer_update doc_id mh h c) (answer_update_len doc_id mh h c hmh hh)

theorem ceil_div_step (n bs : Nat) (hbs : 1 ≤ bs) (hn : 1 ≤ n) :
    (n + bs - 1) / bs = ((n - bs) + bs - 1) / bs + 1 := by
  rcases le_or_lt bs n with h | h
  · have e1 : n + bs - 1 = ((n - bs) + bs - 1) + bs := by omega
    rw [e1, Nat.add_div_right _ (by omega)]
  · have e0 : n - bs = 0 := by omega
    have e1 : n + bs - 1 = (n - 1) + bs := by omega
    rw [e0, e1, Nat.add_div_right _ (by omega), Nat.div_eq_of_lt (by omega),
        Nat.div_eq_of_lt (by omega)]

theorem batches_nil (bs : Nat) (hbs : 1 ≤ bs) : batches bs [] = [] := by
  have h0 : (bs - 1) / bs = 0 := Nat.div_eq_of_lt (by omega)
  simp [batches, batch_starts, h0]

theorem range'_cons (s n step : Nat) :
    List.range' s (n + 1) step = s :: List.range' (s + step) n step := by
  simp [List.range']

theorem batches_cons (bs : Nat) (hbs : 1 ≤ bs) (l : List Chunk) (hl : l ≠ []) :
    batches bs l = l.take bs :: batches bs (l.drop bs) := by
  have hn : 1 ≤ l.length := by
    cases l with
    | nil => exact absurd rfl hl
    | cons a as => simp
  unfold batches batch_starts
  rw [List.length_drop, ceil_div_step l.length bs hbs hn, range'_cons]
  simp only [List.map_cons, List.drop_zero, Nat.zero_add]
  refine congrArg₂ _ rfl ?_
  have hmr : List.map (fun i => bs + i) (List.range' 0 ((l.length - bs + bs - 1) / bs) bs)
      = List.range' bs ((l.length - bs + bs - 1) / bs) bs := by
    simp
  rw [← hmr, List.map_map]
  refine congrArg₂ _ ?_ rfl
  funext i
  simp only [Function.comp]
  rw [List.drop_drop]

theorem batches_flatten (bs : Nat) (hbs : 1 ≤ bs) (l : List Chunk) :
    (batches bs l).flatten = l := by
  have aux : ∀ (n : Nat) (l : List Chunk), l.length ≤ n → (batches bs l).flatten = l := by
    intro n
    induction n with
    | zero =>
      intro l hl
      have : l = [] := by cases l with
        | nil => rfl
        | cons a as => simp at hl
      subst this
      simp [batches_nil bs hbs]
    | succ n ih =>
      intro l hl
      cases hc : l with
      | nil => simp [batches_nil bs hbs]
      | cons a as =>
        rw [← hc, batches_cons bs hbs l (by rw [hc]; simp)]
        simp only [List.flatten_cons]
        rw [ih (l.drop bs) (by rw [List.length_drop]; rw [hc] at hl ⊢; simp at hl ⊢; omega)]
        exact List.take_append_drop bs l
  exact aux l.length l (le_refl _)

theorem batches_len_le (bs : Nat) (l : List Chunk) (b : List Chunk)
    (hb : b ∈ batches bs l) : b.length ≤ bs := by
  rcases List.mem_map.mp hb with ⟨i, _, hbi⟩
  rw [← hbi, List.length_take]
  exact min_le_left _ _

theorem run_batches_ok_iff (add : List Chunk → Except String Unit) (bl : List (List Chunk)) :
    run_batches add bl = Except.ok () ↔ ∀ b ∈ bl, add b = Except.ok () := by
  induction bl with
  | nil => simp [run_batches]
  | cons b rest ih =>
    constructor
    · intro h
      intro x hx
      cases ha : add b with
      | error e => rw [run_batches, ha] at h; cases h
      | ok u =>
        rcases List.mem_cons.mp hx with hx | hx
        · subst hx; cases u; exact ha
        · rw [run_batches, ha] at h
          exact (ih.mp h) x hx
    · intro h
      have hb : add b = Except.ok () := h b (by simp)
      rw [run_batches, hb]
      exact ih.mpr (fun x hx => h x (by simp [hx]))

theorem map_split_flatten (split1 : Chunk → List Chunk) (docs : List Chunk) :
    (docs.map (fun d => split_documents split1 [d])).flatten = split_documents split1 docs := by
  induction docs with
  | nil => rfl
  | cons d ds ih =>
    simp [split_documents] at ih ⊢
    simp [ih]

/-! Claim theorems. -/

/-- C1 counterexample: with doc_id "contract.pdf" set and a single retrieved
chunk whose metadata names another document (so no chunk matches), the scoping
step of QAAgent.answer does not return the original unscoped set — it returns
the empty list, and the code carries no fellBack signal at all. -/
theorem c1_scope_no_match_cex :
    doc_matches (some "contract.pdf") [("doc_id", MetaVal.str "other.pdf")] = false ∧
    scope_step (some "contract.pdf")
        [⟨"clause text", [("doc_id", MetaVal.str "other.pdf")]⟩]
      ≠ [⟨"clause text", [("doc_id", MetaVal.str "other.pdf")]⟩] ∧
    scope_step (some "contract.pdf")
        [⟨"clause text", [("doc_id", MetaVal.str "other.pdf")]⟩] = [] := by
  decide

/-- C1 (amended): for every set document identifier and every retrieved chunk
set in which no chunk's metadata matches, the scoping step of QAAgent.answer
returns the empty list — a silent empty result; there is no fallback to the
unscoped set and no fellBack signal. -/
theorem c1_scope_no_match_empty (d : String) (chunks : List Chunk) (hd : d ≠ "")
    (hnone : ∀ c ∈ chunks, doc_matches (some d) c.metadata = false) :
    scope_step (some d) chunks = [] := by
  unfold scope_step
  rw [py_truthy_id_pos d hd]
  simp only [if_true]
  apply List.filter_eq_nil_iff.mpr
  intro c hc
  simp [hnone c hc]

/-- C1 witness: the amended statement evaluated at a concrete no-match input. -/
theorem c1_scope_no_match_empty_witness :
    scope_step (some "contract.pdf")
      [⟨"memo text", [("source", MetaVal.str "other.pdf")]⟩] = [] :=
  c1_scope_no_match_empty "contract.pdf" _ (by decide) (by decide)

/-- C6 (confirmed): for every set document identifier d and every chunk set in
which each chunk's metadata contains d under one of the tracked keys, the
scoping step keeps exactly those chunks (all of them, with no fallback taken),
and matching is substring containment — a value that merely contains d, for
instance with a path prefixed, still matches. -/
theorem c6_scope_keeps_matching (d : String) (chunks : List Chunk) (hd : d ≠ "")
    (hall : ∀ c ∈ chunks, tracked_keys.any
        (fun k => ((meta_get c.metadata k).map (meta_val_has d)).getD false) = true) :
    scope_step (some d) chunks = chunks ∧
    ∀ pre suf : String,
      doc_matches (some d) [("source", MetaVal.str (pre ++ d ++ suf))] = true := by
  constructor
  · unfold scope_step
    rw [py_truthy_id_pos d hd]
    simp only [if_true]
    apply List.filter_eq_self.mpr
    intro c hc
    exact doc_matches_of_has d c.metadata hd (hall c hc)
  · intro pre suf
    apply doc_matches_of_has d _ hd
    apply List.any_eq_true.mpr
    refine ⟨"source", by simp [tracked_keys], ?_⟩
    have hm : meta_get [("source", MetaVal.str (pre ++ d ++ suf))] "source"
        = some (MetaVal.str (pre ++ d ++ suf)) := rfl
    rw [hm]
    simp [meta_val_has, py_in_parts d pre suf]

/-- C6 witness: two chunks that mention contract.pdf under tracked keys
(one path-prefixed scalar, one list value) are both kept. -/
theorem c6_scope_keeps_matching_witness :
    scope_step (some "contract.pdf") c6_chunks = c6_chunks :=
  (c6_scope_keeps_matching "contract.pdf" c6_chunks (by decide) (by decide)).1

/-- C7 (confirmed): for every non-empty document identifier d (the empty
string is Python-falsy and means unset), _normalize_doc_ids returns exactly
the set of the raw identifier, its basename, and the basename without
extension; and, as a pure function, it is deterministic. -/
theorem c7_normalize_doc_ids_spec (d : String) (hd : d ≠ "") :
    (∀ x : String, x ∈ normalize_doc_ids (some d) ↔
      x = d ∨ x = basename d ∨ x = splitext_root (basename d)) ∧
    normalize_doc_ids (some d) = normalize_doc_ids (some d) := by
  refine ⟨?_, rfl⟩
  intro x
  simp [normalize_doc_ids, hd]

/-- C7 witness: membership evaluated at a path-shaped identifier. -/
theorem c7_normalize_doc_ids_spec_witness :
    ("contract" : String) ∈ normalize_doc_ids (some "docs/contract.pdf") ↔
      ("contract" = "docs/contract.pdf" ∨ "contract" = basename "docs/contract.pdf" ∨
       "contract" = splitext_root (basename "docs/contract.pdf")) :=
  (c7_normalize_doc_ids_spec "docs/contract.pdf" (by decide)).1 "contract"

/-- C2 counterexample: decide_next does not always return a known stage or the
terminal value. A parseable decision naming an unknown stage under the actual
routing key next_agent is returned verbatim (an undefined route), and JSON
content that is not an object raises AttributeError. -/
theorem c2_decide_next_unknown_stage_cex :
    decide_next true
        (ParsedContent.parsed (JsonVal.jobj [("next_agent", JsonVal.jstr "bogus_stage")]))
      = Except.ok "bogus_stage" ∧
    "bogus_stage" ∉ known_targets ∧
    decide_next true (ParsedContent.parsed (JsonVal.jarr [])) = Except.error "AttributeError" := by
  refine ⟨rfl, by decide, rfl⟩

/-- C2 (amended): non-JSON content, a non-AIMessage, and a decision lacking a
truthy next_agent key (in particular the claim's example with key next_stage)
all route to "end"; but an object naming an unknown stage under next_agent is
returned as-is (lowercased after stripping), not degraded to "end". -/
theorem c2_decide_next_degrades (s : String) (h : py_strip s ≠ "") :
    decide_next true ParsedContent.decode_error = Except.ok "end" ∧
    decide_next false (ParsedContent.parsed (JsonVal.jstr "anything")) = Except.ok "end" ∧
    decide_next true
        (ParsedContent.parsed (JsonVal.jobj [("next_stage", JsonVal.jstr "bogus_stage")]))
      = Except.ok "end" ∧
    decide_next true (ParsedContent.parsed (JsonVal.jobj [("next_agent", JsonVal.jstr s)]))
      = Except.ok (py_lower (py_strip s)) := by
  refine ⟨rfl, rfl, rfl, ?_⟩
  show Except.ok (if py_strip s = "" then "end" else py_lower (py_strip s))
      = Except.ok (py_lower (py_strip s))
  rw [if_neg h]

/-- C2 witness: the amended routing behaviour at a concrete stage name. -/
theorem c2_decide_next_degrades_witness :
    decide_next true
        (ParsedContent.parsed (JsonVal.jobj [("next_agent", JsonVal.jstr "Summarizer_Agent")]))
      = Except.ok (py_lower (py_strip "Summarizer_Agent")) :=
  (c2_decide_next_degrades "Summarizer_Agent" (by decide)).2.2.2

/-- C3 counterexample: a model-invocation failure inside QAAgent.answer is not
recovered — the exception propagates to the caller instead of producing a
fallback answer. -/
theorem c3_invocation_failure_cex :
    (answer none 6 [] (Except.ok []) (Except.ok [])
        (fun _ => Except.error "InvocationFailure: model call timed out")
        "What is the notice period?").1
      = Except.error "InvocationFailure: model call timed out" := rfl

/-- C3 (amended): retrieval failures are recovered locally (each failed
retriever degrades to an empty context and the call still answers), but a
model-invocation failure propagates out of answer unchanged, leaving the
history untouched; there is no context-free fallback answer attempt. -/
theorem c3_answer_error_paths (doc_id : Option String) (mh : Nat) (hist : List Msg)
    (retA retD : Except String (List Chunk)) (q e e1 e2 a : String) :
    ((answer doc_id mh hist retA retD (fun _ => Except.error e) q).1 = Except.error e ∧
     (answer doc_id mh hist retA retD (fun _ => Except.error e) q).2 = hist) ∧
    (answer doc_id mh hist (Except.error e1) (Except.error e2) (fun _ => Except.ok a) q).1
      = Except.ok (py_strip a) :=
  ⟨⟨rfl, rfl⟩, rfl⟩

/-- C9 counterexample: with max_history = 0 the Python slice
history[-max_history*2:] is history[0:], the whole list, so one successful
answer call leaves 2 entries, exceeding 2 * max_history = 0. -/
theorem c9_history_mh_zero_cex : 2 * 0 < (run_answers none 0 c9_cex_calls).length := by
  decide

/-- C9 (amended): for max_history ≥ 1, after any number of answer calls the
conversation history holds at most 2 * max_history entries; each successful
call appends exactly one question and one answer message and then truncates to
the most recent 2 * max_history entries (for max_history = 0 the truncation
slice is a no-op and the bound fails). -/
theorem c9_history_bounded (doc_id : Option String) (mh : Nat) (hmh : 1 ≤ mh)
    (calls : List CallIn) :
    (run_answers doc_id mh calls).length ≤ 2 * mh ∧
    ∀ (h : List Msg) (retA retD : Except String (List Chunk)) (q a : String),
      (answer doc_id mh h retA retD (fun _ => Except.ok a) q).2
        = (if (h ++ [Msg.human q, Msg.ai a]).length > mh * 2
           then py_slice_last (mh * 2) (h ++ [Msg.human q, Msg.ai a])
           else h ++ [Msg.human q, Msg.ai a]) := by
  constructor
  · exact foldl_answer_len doc_id mh hmh calls [] (by simp)
  · intro h retA retD q a
    rfl

/-- C9 witness: a concrete two-call session with max_history 1 stays within
the bound. -/
theorem c9_history_bounded_witness : (run_answers none 1 c9_calls).length ≤ 2 * 1 :=
  (c9_history_bounded none 1 (by decide) c9_calls).1

/-- C10 (confirmed): the thread-pooled chunking path equals the in-order
concatenation of the splitter's output on each document taken individually,
which in turn equals sequential whole-list splitting — the parallelism never
changes the resulting chunk list. -/
theorem c10_chunking_equiv (split1 : Chunk → List Chunk) (documents : List Chunk) :
    chunk_documents_parallel split1 documents
      = (documents.map (fun d => split_documents split1 [d])).flatten ∧
    chunk_documents_parallel split1 documents = split_documents split1 documents := by
  have h2 : chunk_documents_parallel split1 documents = split_documents split1 documents := by
    by_cases hle : documents.length ≤ 1
    · simp only [chunk_documents_parallel, if_pos hle]
    · simp only [chunk_documents_parallel, if_neg hle]
      exact map_split_flatten split1 documents
  exact ⟨by rw [h2, ← map_split_flatten split1 documents], h2⟩

theorem load_unsupported (env : LoadEnv) (p : String) (h : ext_of p ∉ supported_exts) :
    load_document_parallel env p = Except.error ("Unsupported file type: " ++ ext_of p) := by
  simp [supported_exts] at h
  obtain ⟨h1, h2, h3, h4, h5⟩ := h
  simp [load_document_parallel, h1, h2, h3, h4, h5]

/-- C4 counterexample: a path that exists, a supported extension, and an OCR
read that yields empty text: the loader returns one empty document, the list
is non-empty, so process_document succeeds with extracted_text empty and
num_chunks 0 — a silently stored zero-chunk result instead of an error. -/
theorem c4_empty_text_stored_cex :
    process_document env_blank_scan split_drop_empty add_ok 100 "vector_store" "scan.png"
      = ProcResult.ok ⟨"scan.png", 0, "vector_store", ""⟩ ∧
    proc_is_error
        (process_document env_blank_scan split_drop_empty add_ok 100 "vector_store" "scan.png")
      = false := by
  decide

/-- C4 (amended): the emptiness check of process_document tests the loaded
document LIST, not the extracted text: an empty list is a reported error,
while a non-empty list (with successful storage) yields success with
num_chunks equal to the chunker's total output and extracted_text the
space-joined page contents — even when that text is empty. -/
theorem c4_process_document_list_empty (env : LoadEnv) (split1 : Chunk → List Chunk)
    (add : List Chunk → Except String Unit) (bs : Nat) (dir p : String)
    (hp : env.path_exists p = true) :
    (load_document_parallel env p = Except.ok [] →
      process_document env split1 add bs dir p
        = ProcResult.error "No text extracted from document.") ∧
    (∀ docs : List Chunk, load_document_parallel env p = Except.ok docs → docs ≠ [] →
      store_in_vectordb_batch add bs (chunk_documents_parallel split1 docs) = Except.ok () →
      process_document env split1 add bs dir p
        = ProcResult.ok ⟨basename p, (chunk_documents_parallel split1 docs).length, dir,
            join_space (docs.map Chunk.page_content)⟩) := by
  constructor
  · intro hl
    simp [process_document, hp, hl]
  · intro docs hl hne hs
    cases docs with
    | nil => exact absurd rfl hne
    | cons d ds =>
      simp [process_document, hp, hl, hs]

/-- C4 witness: the amended behaviour at two concrete inputs — an empty
loader result is an error; a one-document OCR read succeeds with one chunk. -/
theorem c4_process_document_list_empty_witness :
    process_document env_present split_id add_ok 100 "vector_store" "empty.pdf"
      = ProcResult.error "No text extracted from document." ∧
    process_document env_hello split_id add_ok 100 "vector_store" "brief.png"
      = ProcResult.ok ⟨"brief.png", 1, "vector_store", "hello world"⟩ := by
  constructor
  · exact (c4_process_document_list_empty env_present split_id add_ok 100
      "vector_store" "empty.pdf" rfl).1 rfl
  · exact (c4_process_document_list_empty env_hello split_id add_ok 100
      "vector_store" "brief.png" rfl).2 [⟨"hello world", []⟩] rfl (by decide) rfl

/-- C5 counterexample: the failure result of batched storage does not report
how many chunks were persisted: a run failing on its first batch (0 chunks
persisted) and a run failing on its second batch (2 chunks persisted) return
the very same error value. -/
theorem c5_store_error_no_count_cex :
    store_in_vectordb_batch add_fail_bad 2 c5_chunks_early = Except.error "db write failed" ∧
    store_in_vectordb_batch add_fail_bad 2 c5_chunks_late = Except.error "db write failed" ∧
    persisted_count add_fail_bad (batches 2 c5_chunks_early) = 0 ∧
    persisted_count add_fail_bad (batches 2 c5_chunks_late) = 2 := by
  decide

/-- C5 (amended): storage is applied as sequential slices chunks[i:i+bs] of at
most batch_size chunks each (default 100) whose concatenation is the whole
chunk list, and the call succeeds exactly when every batch add succeeds; on a
mid-storage failure it returns only the underlying exception message, with no
PartialIngestion record of how many chunks were persisted. -/
theorem c5_store_batches_spec (add : List Chunk → Except String Unit) (bs : Nat)
    (chunks : List Chunk) (hbs : 1 ≤ bs) :
    (batches bs chunks).flatten = chunks ∧
    (∀ b ∈ batches bs chunks, b.length ≤ bs) ∧
    (store_in_vectordb_batch add bs chunks = Except.ok () ↔
      ∀ b ∈ batches bs chunks, add b = Except.ok ()) ∧
    batch_size_default = 100 :=
  ⟨batches_flatten bs hbs chunks, fun b hb => batches_len_le bs chunks b hb,
   run_batches_ok_iff add (batches bs chunks), rfl⟩

/-- C5 witness: the batch decomposition at a concrete three-chunk list with
batch size two. -/
theorem c5_store_batches_spec_witness :
    (batches 2 c5_chunks_late).flatten = c5_chunks_late :=
  (c5_store_batches_spec add_ok 2 c5_chunks_late (by decide)).1

/-- C8 (confirmed): process_document returns the NotFound error record when
the path does not exist and the UnsupportedFormat error record when the
extension is none of pdf, docx, png, jpg, jpeg; both are returned values
surfaced to the caller, never uncaught exceptions. -/
theorem c8_process_document_aborts (env : LoadEnv) (split1 : Chunk → List Chunk)
    (add : List Chunk → Except String Unit) (bs : Nat) (dir p : String) :
    (env.path_exists p = false →
      process_document env split1 add bs dir p
        = ProcResult.error ("File not found: " ++ p)) ∧
    (env.path_exists p = true → ext_of p ∉ supported_exts →
      process_document env split1 add bs dir p
        = ProcResult.error ("Unsupported file type: " ++ ext_of p)) := by
  constructor
  · intro h
    simp [process_document, h]
  · intro h hn
    simp [process_document, h, load_unsupported env p hn]

/-- C8 witness: the two error paths at concrete inputs. -/
theorem c8_process_document_aborts_witness :
    process_document env_missing split_id add_ok 100 "vector_store" "contract.pdf"
      = ProcResult.error ("File not found: " ++ "contract.pdf") ∧
    process_document env_present split_id add_ok 100 "vector_store" "notes.txt"
      = ProcResult.error ("Unsupported file type: " ++ ext_of "notes.txt") :=
  ⟨(c8_process_document_aborts env_missing split_id add_ok 100 "vector_store" "contract.pdf").1
     rfl,
   (c8_process_document_aborts env_present split_id add_ok 100 "vector_store" "notes.txt").2
     rfl (by decide)⟩
